import Mathlib

/-
  Verification development for the Retirement-and-Insurance-Simulator
  repository.  The numeric core of the program (bisection solvers,
  corpus / SIP simulation, risk blending, allocation table, insurance
  cover rules) is embedded shallowly over the rational numbers; the
  real arithmetic of the source is modelled exactly by `Rat`.
-/

set_option maxRecDepth 4000

namespace RetSim

/-- Annual inflation constant of the source (`INFLATION = 0.06`). -/
def inflRate : ℚ := 6 / 100

/-- Post-retirement return constant of the source (`POST_RET_RETURN = 0.05`). -/
def postRetReturn : ℚ := 5 / 100

/-- One step of the bisection loop shared by all solvers of the source:
`mid = (lo + hi) / 2; if p(mid) then hi = mid else lo = mid`. -/
def bstep (p : ℚ → Bool) (s : ℚ × ℚ) : ℚ × ℚ :=
  let mid := (s.1 + s.2) / 2
  if p mid then (s.1, mid) else (mid, s.2)

/-- Function `bisect p s n` applies `n` bisection steps to the state `s = (lo, hi)`. -/
def bisect (p : ℚ → Bool) (s : ℚ × ℚ) : ℕ → ℚ × ℚ
  | 0 => s
  | n + 1 => bstep p (bisect p s n)

/-- Survival loop of `required_corpus_fd`: each year
`C = C + C * POST_RET_RETURN - annual_at_ret`, failing as soon as `C < 0`. -/
def fdGo (annual : ℚ) : ℕ → ℚ → Bool
  | 0, _ => true
  | n + 1, C =>
    let C' := C + C * postRetReturn - annual
    if C' < 0 then false else fdGo annual n C'

/-- Source function `required_corpus_fd` of `src/pages/retirement.py`: bisection over
`[0, 1e11]`, 100 iterations, returning `hi`. -/
def required_corpus_fd (monthly_expense_today : ℚ) (years_to_ret retirement_years : ℕ) : ℚ :=
  let annual_at_ret := monthly_expense_today * 12 * (1 + inflRate) ^ years_to_ret
  (bisect (fun C => fdGo annual_at_ret retirement_years C) (0, 100000000000) 100).2

/-- Survival loop of `required_corpus_inflation`: each year
`C = C * (1 + POST_RET_RETURN) - E`, failing as soon as `C < 0`,
then `E = E * (1 + INFLATION)`. -/
def inflGo : ℕ → ℚ → ℚ → Bool
  | 0, _, _ => true
  | n + 1, C, E =>
    let C' := C * (1 + postRetReturn) - E
    if C' < 0 then false else inflGo n C' (E * (1 + inflRate))

/-- Source function `required_corpus_inflation` of `src/pages/retirement.py`. -/
def required_corpus_inflation (monthly_expense_today : ℚ) (years_to_ret retirement_years : ℕ) : ℚ :=
  let annual_at_ret := monthly_expense_today * 12 * (1 + inflRate) ^ years_to_ret
  (bisect (fun C => inflGo retirement_years C annual_at_ret) (0, 100000000000) 100).2

/-- Accumulation loop of `required_monthly_sip`: `years` annual steps of
`C = C * (1 + annual_return) + 12 * mid` starting from `C`. -/
def sipGo (annual_return mid : ℚ) : ℕ → ℚ → ℚ
  | 0, C => C
  | n + 1, C => sipGo annual_return mid n (C * (1 + annual_return) + 12 * mid)

/-- Python `int()` applied to a nonnegative-or-negative rational:
truncation toward zero. -/
def pyInt (q : ℚ) : ℤ := q.num.tdiv q.den

/-- Source function `required_monthly_sip` of `src/pages/retirement.py`: bisection over
`[0, 300000]`, 100 iterations, predicate `C >= required_corpus`,
result `int(hi)`. -/
def required_monthly_sip (required_corpus current_savings : ℚ) (years : ℕ)
    (annual_return : ℚ) : ℤ :=
  pyInt (bisect (fun mid => decide (required_corpus ≤ sipGo annual_return mid years current_savings))
    (0, 300000) 100).2

/-- Source function `system_risk_level` of `src/pages/retirement.py`. -/
def system_risk_level (current_age retirement_age : ℤ) (is_behind : Bool) : ℤ :=
  let years := retirement_age - current_age
  let base : ℤ := if years > 25 then 4 else if years > 15 then 3 else 2
  if is_behind then min 5 (base + 1) else base

/-- Source function `blended_risk` of `src/pages/retirement.py`:
`max(1, min(5, round(0.6 * user_risk + 0.4 * system_risk)))`. -/
def blended_risk (user_risk system_risk : ℤ) : ℤ :=
  max 1 (min 5 (round ((6 / 10 : ℚ) * user_risk + (4 / 10 : ℚ) * system_risk)))

/-- The four asset classes of the `ASSET_RETURNS` / `RISK_ALLOC` tables. -/
inductive Asset
  | Equity
  | Debt
  | Gold
  | Savings
deriving DecidableEq

/-- Table `ASSET_RETURNS` of `src/pages/retirement.py`. -/
def assetReturns : Asset → ℚ
  | .Equity => 12 / 100
  | .Debt => 7 / 100
  | .Gold => 6 / 100
  | .Savings => 4 / 100

/-- Table `RISK_ALLOC` of `src/pages/retirement.py`: fixed allocation fractions
per risk level 1..5 (keys outside the table have no row; modelled as 0). -/
def RISK_ALLOC (risk : ℤ) (a : Asset) : ℚ :=
  if risk = 1 then (match a with
    | .Equity => 25 / 100 | .Debt => 45 / 100 | .Gold => 10 / 100 | .Savings => 20 / 100)
  else if risk = 2 then (match a with
    | .Equity => 35 / 100 | .Debt => 40 / 100 | .Gold => 10 / 100 | .Savings => 15 / 100)
  else if risk = 3 then (match a with
    | .Equity => 50 / 100 | .Debt => 30 / 100 | .Gold => 10 / 100 | .Savings => 10 / 100)
  else if risk = 4 then (match a with
    | .Equity => 65 / 100 | .Debt => 20 / 100 | .Gold => 10 / 100 | .Savings => 5 / 100)
  else if risk = 5 then (match a with
    | .Equity => 75 / 100 | .Debt => 10 / 100 | .Gold => 10 / 100 | .Savings => 5 / 100)
  else 0

/-- The asset classes in the order of the source dictionaries. -/
def assetList : List Asset := [.Equity, .Debt, .Gold, .Savings]

/-- Dataclass `InsuranceInputs` of `src/pages/insurance.py`. -/
structure InsuranceInputs where
  age : ℤ
  annual_income : ℚ
  dependents : ℤ
  existing_life_cover : ℚ
  existing_health_cover : ℚ
  city_tier : String
  lifestyle_risks : Option (List String)

/-- Source function `calculate_required_health_cover` of `src/pages/insurance.py`:
sequential additions to an age-banded base cover. -/
def calculate_required_health_cover (inputs : InsuranceInputs) : ℚ :=
  let lifestyle := inputs.lifestyle_risks.getD []
  let base0 : ℚ :=
    if inputs.age < 30 then 1000000 else if inputs.age ≤ 45 then 1500000 else 2500000
  let base1 := if inputs.dependents ≥ 2 then base0 + 500000 else base0
  let base2 :=
    if inputs.city_tier = "Tier_1" then base1 + 500000
    else if inputs.city_tier = "Tier_2" then base1 + 250000
    else base1
  let base3 := if "smoking" ∈ lifestyle then base2 + 500000 else base2
  let base4 := if "sedentary" ∈ lifestyle then base3 + 250000 else base3
  if "high_stress" ∈ lifestyle then base4 + 250000 else base4

/-!  Spec-side definitions, written from the wording of the specification
(year-indexed withdrawal schedule; iterated compounding step).  They are
compared with the source-side definitions in the refinement theorems. -/

/-- Spec-side survival simulation: for each remaining year, apply the
post-retirement growth rate to the corpus, then subtract that year's
withdrawal `w j`; the candidate fails as soon as the corpus drops below
zero.  `j` is the index of the current retirement year. -/
def specSurvives (w : ℕ → ℚ) : ℕ → ℕ → ℚ → Bool
  | _, 0, _ => true
  | j, n + 1, C =>
    let C' := C * (1 + postRetReturn) - w j
    if C' < 0 then false else specSurvives w (j + 1) n C'

/-- Spec-side corpus requirement: bisection approximation (interval
`[0, 1e11]`, 100 iterations, returning `hi`) of the minimal starting
corpus surviving the withdrawal schedule `w`. -/
def specCorpus (w : ℕ → ℚ) (retirement_years : ℕ) : ℚ :=
  (bisect (fun C => specSurvives w 0 retirement_years C) (0, 100000000000) 100).2

/-- Spec-side final balance: iterate
`balance = balance * (1 + annual_return) + 12 * M` for `years` steps. -/
def specFinal (S r M : ℚ) (years : ℕ) : ℚ :=
  (fun b => b * (1 + r) + 12 * M)^[years] S

/-- Spec-side SIP requirement: bisection approximation over `[0, 300000]`,
100 iterations, of the minimal constant monthly contribution whose final
balance reaches the required corpus, truncated to a whole unit. -/
def specMonthlySip (required_corpus current_savings : ℚ) (years : ℕ)
    (annual_return : ℚ) : ℤ :=
  pyInt (bisect
    (fun M => decide (required_corpus ≤ specFinal current_savings annual_return M years))
    (0, 300000) 100).2

/-!  General lemmas about the bisection loop. -/

/-- If the predicate holds at the upper end of the interval, it holds at the
upper end of every later interval. -/
theorem bstep_hi_true (p : ℚ → Bool) (s : ℚ × ℚ) (h : p s.2 = true) :
    p (bstep p s).2 = true := by
  unfold bstep
  by_cases hm : p ((s.1 + s.2) / 2) = true
  · simp [hm]
  · simp only [Bool.not_eq_true] at hm
    simp [hm, h]

/-- Upper-end truth is invariant under the whole bisection loop. -/
theorem bisect_hi_true (p : ℚ → Bool) (s : ℚ × ℚ) (h : p s.2 = true) :
    ∀ n, p (bisect p s n).2 = true
  | 0 => h
  | n + 1 => bstep_hi_true p _ (bisect_hi_true p s h n)

/-- The lower end of the interval is either still the initial lower end or a
midpoint at which the predicate evaluated to false. -/
theorem bisect_lo_false (p : ℚ → Bool) (s : ℚ × ℚ) :
    ∀ n, (bisect p s n).1 = s.1 ∨ p (bisect p s n).1 = false := by
  intro n
  induction n with
  | zero => exact Or.inl rfl
  | succ n ih =>
    show (bstep p (bisect p s n)).1 = s.1 ∨ p (bstep p (bisect p s n)).1 = false
    unfold bstep
    by_cases hm : p (((bisect p s n).1 + (bisect p s n).2) / 2) = true
    · simp only [hm, if_true]
      exact ih
    · simp only [Bool.not_eq_true] at hm
      simp [hm]

/-- If the predicate is false everywhere, the upper end never moves. -/
theorem bisect_hi_of_false (p : ℚ → Bool) (s : ℚ × ℚ) (h : ∀ x, p x = false) :
    ∀ n, (bisect p s n).2 = s.2
  | 0 => rfl
  | n + 1 => by
    show (bstep p (bisect p s n)).2 = s.2
    unfold bstep
    simp [h, bisect_hi_of_false p s h n]

/-- If the predicate is true everywhere, the bisection from `(0, H)` halves
the upper end at each step. -/
theorem bisect_of_true (p : ℚ → Bool) (H : ℚ) (h : ∀ x, p x = true) :
    ∀ n, bisect p (0, H) n = (0, H / 2 ^ n) := by
  intro n
  induction n with
  | zero => simp [bisect]
  | succ n ih =>
    show bstep p (bisect p (0, H) n) = _
    rw [ih]
    unfold bstep
    simp only [h, if_true]
    have h2 : (2 : ℚ) ^ (n + 1) = 2 ^ n * 2 := pow_succ 2 n
    have hn : (2 : ℚ) ^ n ≠ 0 := pow_ne_zero n two_ne_zero
    have : (0 + H / 2 ^ n) / 2 = H / 2 ^ (n + 1) := by
      rw [h2]
      field_simp
    rw [this]

/-- Paired grid invariant for two bisection runs from `(0, H)` whose
predicates are pointwise ordered (`p₂ x = true → p₁ x = true`): after `n`
steps each interval is one cell of the dyadic grid of mesh `H / 2 ^ n`, and
the run with the weaker predicate sits at a cell no further to the right. -/
theorem bisect_pair (p₁ p₂ : ℚ → Bool) (himp : ∀ x, p₂ x = true → p₁ x = true)
    (H : ℚ) (n : ℕ) :
    ∃ k₁ k₂ : ℕ, k₁ ≤ k₂ ∧ k₂ + 1 ≤ 2 ^ n ∧
      bisect p₁ (0, H) n = ((k₁ : ℚ) * (H / 2 ^ n), ((k₁ : ℚ) + 1) * (H / 2 ^ n)) ∧
      bisect p₂ (0, H) n = ((k₂ : ℚ) * (H / 2 ^ n), ((k₂ : ℚ) + 1) * (H / 2 ^ n)) := by
  induction n with
  | zero =>
    refine ⟨0, 0, le_refl 0, le_refl 1, ?_, ?_⟩ <;> norm_num [bisect]
  | succ n ih =>
    obtain ⟨k₁, k₂, hk, hkb, h1, h2⟩ := ih
    have hn : (2 : ℚ) ^ n ≠ 0 := pow_ne_zero n two_ne_zero
    have hd : H / 2 ^ n = 2 * (H / 2 ^ (n + 1)) := by
      rw [pow_succ]
      field_simp
      ring
    have hpow : 2 ^ (n + 1) = 2 * 2 ^ n := by
      rw [pow_succ]
      ring
    have hb1 : bisect p₁ (0, H) (n + 1)
        = bstep p₁ ((k₁ : ℚ) * (H / 2 ^ n), ((k₁ : ℚ) + 1) * (H / 2 ^ n)) := by
      show bstep p₁ (bisect p₁ (0, H) n) = _
      rw [h1]
    have hb2 : bisect p₂ (0, H) (n + 1)
        = bstep p₂ ((k₂ : ℚ) * (H / 2 ^ n), ((k₂ : ℚ) + 1) * (H / 2 ^ n)) := by
      show bstep p₂ (bisect p₂ (0, H) n) = _
      rw [h2]
    simp only [bstep] at hb1 hb2
    by_cases hp1 : p₁ (((k₁ : ℚ) * (H / 2 ^ n) + ((k₁ : ℚ) + 1) * (H / 2 ^ n)) / 2) = true <;>
      by_cases hp2 : p₂ (((k₂ : ℚ) * (H / 2 ^ n) + ((k₂ : ℚ) + 1) * (H / 2 ^ n)) / 2) = true
    · refine ⟨2 * k₁, 2 * k₂, by omega, by omega, ?_, ?_⟩
      · rw [hb1, if_pos hp1, Prod.mk.injEq]
        constructor <;> (push_cast; rw [hd]; ring)
      · rw [hb2, if_pos hp2, Prod.mk.injEq]
        constructor <;> (push_cast; rw [hd]; ring)
    · refine ⟨2 * k₁, 2 * k₂ + 1, by omega, by omega, ?_, ?_⟩
      · rw [hb1, if_pos hp1, Prod.mk.injEq]
        constructor <;> (push_cast; rw [hd]; ring)
      · rw [hb2, if_neg hp2, Prod.mk.injEq]
        constructor <;> (push_cast; rw [hd]; ring)
    · have hne : k₁ ≠ k₂ := by
        intro he
        rw [he] at hp1
        exact hp1 (himp _ hp2)
      refine ⟨2 * k₁ + 1, 2 * k₂, by omega, by omega, ?_, ?_⟩
      · rw [hb1, if_neg hp1, Prod.mk.injEq]
        constructor <;> (push_cast; rw [hd]; ring)
      · rw [hb2, if_pos hp2, Prod.mk.injEq]
        constructor <;> (push_cast; rw [hd]; ring)
    · refine ⟨2 * k₁ + 1, 2 * k₂ + 1, by omega, by omega, ?_, ?_⟩
      · rw [hb1, if_neg hp1, Prod.mk.injEq]
        constructor <;> (push_cast; rw [hd]; ring)
      · rw [hb2, if_neg hp2, Prod.mk.injEq]
        constructor <;> (push_cast; rw [hd]; ring)

/-- Single-run grid invariant: after `n` bisection steps from `(0, H)` the
interval is a cell of the dyadic grid of mesh `H / 2 ^ n`. -/
theorem bisect_grid (p : ℚ → Bool) (H : ℚ) (n : ℕ) :
    ∃ k : ℕ, k + 1 ≤ 2 ^ n ∧
      bisect p (0, H) n = ((k : ℚ) * (H / 2 ^ n), ((k : ℚ) + 1) * (H / 2 ^ n)) := by
  obtain ⟨k₁, k₂, hk, hkb, h1, _⟩ := bisect_pair p p (fun _ h => h) H n
  exact ⟨k₁, by omega, h1⟩

/-- The returned upper end is monotone in the predicate: a pointwise weaker
predicate yields a smaller (or equal) result. -/
theorem bisect_hi_mono (p₁ p₂ : ℚ → Bool) (himp : ∀ x, p₂ x = true → p₁ x = true)
    (H : ℚ) (hH : 0 ≤ H) (n : ℕ) :
    (bisect p₁ (0, H) n).2 ≤ (bisect p₂ (0, H) n).2 := by
  obtain ⟨k₁, k₂, hk, hkb, h1, h2⟩ := bisect_pair p₁ p₂ himp H n
  rw [h1, h2]
  apply mul_le_mul_of_nonneg_right
  · have : (k₁ : ℚ) ≤ (k₂ : ℚ) := by exact_mod_cast hk
    linarith
  · exact div_nonneg hH (pow_nonneg (by norm_num) n)

/-- If the predicate is monotone and false at the upper end, it is false at
every midpoint, so the upper end never moves. -/
theorem bisect_hi_of_topfalse (p : ℚ → Bool)
    (hmono : ∀ x y, x ≤ y → p x = true → p y = true) :
    ∀ (n : ℕ) (s : ℚ × ℚ), p s.2 = false → s.1 ≤ s.2 →
      (bisect p s n).2 = s.2 ∧ (bisect p s n).1 ≤ s.2
  | 0, s, _, hle => ⟨rfl, hle⟩
  | n + 1, s, htop, hle => by
    obtain ⟨ih2, ih1⟩ := bisect_hi_of_topfalse p hmono n s htop hle
    have hmid : ((bisect p s n).1 + (bisect p s n).2) / 2 ≤ s.2 := by
      rw [ih2] at *
      linarith
    have hpm : p (((bisect p s n).1 + (bisect p s n).2) / 2) = false := by
      by_contra hc
      simp only [Bool.not_eq_false] at hc
      rw [hmono _ _ hmid hc] at htop
      exact absurd htop (by simp)
    show ((bstep p (bisect p s n)).2 = s.2 ∧ (bstep p (bisect p s n)).1 ≤ s.2)
    unfold bstep
    simp only [hpm, Bool.false_eq_true, if_false]
    exact ⟨ih2, hmid⟩

/-!  Closed form and monotonicity of the SIP accumulation loop. -/

/-- Annuity factor: `ann r y = Σ_{k < y} (1 + r) ^ k`. -/
def ann (r : ℚ) : ℕ → ℚ
  | 0 => 0
  | y + 1 => (1 + r) ^ y + ann r y

theorem ann_nonneg (r : ℚ) (hr : -1 ≤ r) : ∀ y, 0 ≤ ann r y
  | 0 => le_refl 0
  | y + 1 => by
    have h1 : (0 : ℚ) ≤ (1 + r) ^ y := pow_nonneg (by linarith) y
    have h2 := ann_nonneg r hr y
    show 0 ≤ (1 + r) ^ y + ann r y
    linarith

/-- Closed form of the accumulation loop:
`sipGo r m y C = C * (1 + r) ^ y + 12 * m * ann r y`. -/
theorem sipGo_closed (r m : ℚ) : ∀ (y : ℕ) (C : ℚ),
    sipGo r m y C = C * (1 + r) ^ y + 12 * m * ann r y
  | 0, C => by simp [sipGo, ann]
  | y + 1, C => by
    show sipGo r m y (C * (1 + r) + 12 * m) = _
    rw [sipGo_closed r m y (C * (1 + r) + 12 * m)]
    show _ = C * (1 + r) ^ (y + 1) + 12 * m * ((1 + r) ^ y + ann r y)
    rw [pow_succ]
    ring

/-- The final balance is monotone in the monthly contribution
(for returns of at least `-100%`). -/
theorem sipGo_mono_mid (r : ℚ) (hr : -1 ≤ r) (m m' : ℚ) (hm : m ≤ m')
    (y : ℕ) (C : ℚ) : sipGo r m y C ≤ sipGo r m' y C := by
  rw [sipGo_closed, sipGo_closed]
  have h := ann_nonneg r hr y
  nlinarith

/-- The final balance is monotone in the starting savings
(for returns of at least `-100%`). -/
theorem sipGo_mono_start (r : ℚ) (hr : -1 ≤ r) (m : ℚ) (y : ℕ) (C C' : ℚ)
    (hC : C ≤ C') : sipGo r m y C ≤ sipGo r m y C' := by
  rw [sipGo_closed, sipGo_closed]
  have h : (0 : ℚ) ≤ (1 + r) ^ y := pow_nonneg (by linarith) y
  nlinarith

/-!  Facts about `pyInt` (Python `int()` truncation). -/

theorem pyInt_eq_floor (q : ℚ) (h : 0 ≤ q) : pyInt q = ⌊q⌋ := by
  have hnum : 0 ≤ q.num := Rat.num_nonneg.mpr h
  have hden : (0 : ℤ) ≤ (q.den : ℤ) := Int.ofNat_nonneg q.den
  rw [pyInt, Int.tdiv_eq_ediv hnum hden, Rat.floor_def]

theorem pyInt_intCast (z : ℤ) : pyInt (z : ℚ) = z := by
  rw [pyInt]
  simp [Rat.intCast_num, Rat.intCast_den]

/-!  Monotonicity of the survival loops in withdrawal size and corpus. -/

/-- Surviving with a larger withdrawal and a smaller corpus implies surviving
with a smaller withdrawal and a larger corpus. -/
theorem fdGo_le (a a' : ℚ) (ha : a' ≤ a) : ∀ (n : ℕ) (C C' : ℚ), C ≤ C' →
    fdGo a n C = true → fdGo a' n C' = true
  | 0, _, _, _, _ => rfl
  | n + 1, C, C', hC, h => by
    have hstep : C + C * postRetReturn - a ≤ C' + C' * postRetReturn - a' := by
      have : C * postRetReturn ≤ C' * postRetReturn := by
        apply mul_le_mul_of_nonneg_right hC
        norm_num [postRetReturn]
      linarith
    simp only [fdGo] at h ⊢
    by_cases hneg : C + C * postRetReturn - a < 0
    · rw [if_pos hneg] at h
      exact absurd h (by simp)
    · rw [if_neg hneg] at h
      rw [if_neg (by linarith)]
      exact fdGo_le a a' ha n _ _ hstep h

/-- Surviving with a larger initial withdrawal and a smaller corpus implies
surviving with a smaller initial withdrawal and a larger corpus
(inflation-stepped withdrawals). -/
theorem inflGo_le : ∀ (n : ℕ) (C C' E E' : ℚ), C ≤ C' → E' ≤ E →
    inflGo n C E = true → inflGo n C' E' = true
  | 0, _, _, _, _, _, _, _ => rfl
  | n + 1, C, C', E, E', hC, hE, h => by
    have hstep : C * (1 + postRetReturn) - E ≤ C' * (1 + postRetReturn) - E' := by
      have : C * (1 + postRetReturn) ≤ C' * (1 + postRetReturn) := by
        apply mul_le_mul_of_nonneg_right hC
        norm_num [postRetReturn]
      linarith
    have hEstep : E' * (1 + inflRate) ≤ E * (1 + inflRate) := by
      apply mul_le_mul_of_nonneg_right hE
      norm_num [inflRate]
    simp only [inflGo] at h ⊢
    by_cases hneg : C * (1 + postRetReturn) - E < 0
    · rw [if_pos hneg] at h
      exact absurd h (by simp)
    · rw [if_neg hneg] at h
      rw [if_neg (by linarith)]
      exact inflGo_le n _ _ _ _ hstep hEstep h

/-!  Equivalence of the source-side and spec-side simulations. -/

/-- The fixed-withdrawal loop agrees with the spec-side simulation under the
constant withdrawal schedule. -/
theorem fdGo_spec (a : ℚ) : ∀ (n j : ℕ) (C : ℚ),
    fdGo a n C = specSurvives (fun _ => a) j n C
  | 0, _, _ => rfl
  | n + 1, j, C => by
    have hv : C + C * postRetReturn - a = C * (1 + postRetReturn) - a := by ring
    simp only [fdGo, specSurvives, hv]
    by_cases hneg : C * (1 + postRetReturn) - a < 0
    · rw [if_pos hneg, if_pos hneg]
    · rw [if_neg hneg, if_neg hneg]
      exact fdGo_spec a n (j + 1) _

/-- The inflation-stepped loop agrees with the spec-side simulation under the
schedule where the first-year withdrawal grows by the inflation rate each
subsequent year. -/
theorem inflGo_spec (A : ℚ) : ∀ (n j : ℕ) (C : ℚ),
    inflGo n C (A * (1 + inflRate) ^ j) = specSurvives (fun i => A * (1 + inflRate) ^ i) j n C
  | 0, _, _ => rfl
  | n + 1, j, C => by
    simp only [inflGo, specSurvives]
    by_cases hneg : C * (1 + postRetReturn) - A * (1 + inflRate) ^ j < 0
    · rw [if_pos hneg, if_pos hneg]
    · rw [if_neg hneg, if_neg hneg]
      have hE : A * (1 + inflRate) ^ j * (1 + inflRate) = A * (1 + inflRate) ^ (j + 1) := by
        rw [pow_succ]
        ring
      rw [hE]
      exact inflGo_spec A n (j + 1) _

/-- The accumulation loop is the iterated compounding step of the spec. -/
theorem sipGo_iterate (r m : ℚ) : ∀ (y : ℕ) (C : ℚ),
    sipGo r m y C = (fun b => b * (1 + r) + 12 * m)^[y] C
  | 0, _ => rfl
  | y + 1, C => by
    show sipGo r m y (C * (1 + r) + 12 * m) = _
    rw [sipGo_iterate r m y (C * (1 + r) + 12 * m), Function.iterate_succ_apply]

/-!  Claim theorems. -/

/-- C1: for every `monthly_expense_today ≥ 0`, `years_to_ret ≥ 0` and
`retirement_years ≥ 1`, each corpus engine returns the bisection
approximation (interval `[0, 1e11]`, 100 iterations, returning `hi`) of the
minimal starting corpus whose year-by-year simulation survives — each year
the 5% post-retirement growth is applied, then that year's withdrawal is
subtracted, failing as soon as the corpus drops below zero; in
`required_corpus_fd` the withdrawal is fixed at
`monthly_expense_today * 12 * 1.06 ^ years_to_ret` every year, while in
`required_corpus_inflation` that same first-year withdrawal grows by 6%
each subsequent year. -/
theorem C1_corpus_engines_bisection (e : ℚ) (he : 0 ≤ e) (y ry : ℕ) (hry : 1 ≤ ry) :
    required_corpus_fd e y ry = specCorpus (fun _ => e * 12 * (1 + inflRate) ^ y) ry ∧
    required_corpus_inflation e y ry
      = specCorpus (fun j => e * 12 * (1 + inflRate) ^ y * (1 + inflRate) ^ j) ry := by
  constructor
  · show (bisect (fun C => fdGo (e * 12 * (1 + inflRate) ^ y) ry C) (0, 100000000000) 100).2 = _
    unfold specCorpus
    rw [funext fun C => fdGo_spec (e * 12 * (1 + inflRate) ^ y) ry 0 C]
  · show (bisect (fun C => inflGo ry C (e * 12 * (1 + inflRate) ^ y)) (0, 100000000000) 100).2
      = _
    unfold specCorpus
    have h : (fun C => inflGo ry C (e * 12 * (1 + inflRate) ^ y))
        = fun C => specSurvives (fun j => e * 12 * (1 + inflRate) ^ y * (1 + inflRate) ^ j) 0 ry C := by
      funext C
      simpa using inflGo_spec (e * 12 * (1 + inflRate) ^ y) ry 0 C
    rw [h]

theorem C1_corpus_engines_bisection_witness :
    (0 : ℚ) ≤ 100 ∧ 1 ≤ 1 ∧
      (required_corpus_fd 100 0 1 = specCorpus (fun _ => 100 * 12 * (1 + inflRate) ^ 0) 1 ∧
        required_corpus_inflation 100 0 1
          = specCorpus (fun j => 100 * 12 * (1 + inflRate) ^ 0 * (1 + inflRate) ^ j) 1) :=
  ⟨by norm_num, le_refl 1, C1_corpus_engines_bisection 100 (by norm_num) 0 1 (le_refl 1)⟩

/-- C2: for every `required_corpus ≥ 0`, `current_savings ≥ 0`, `years ≥ 1`
and `annual_return ≥ 0`, `required_monthly_sip` returns the bisection
approximation over `[0, 300000]` with 100 iterations of the minimal constant
monthly contribution whose iterated balance
`balance * (1 + annual_return) + 12 * M` over `years` steps, starting from
`current_savings`, ends at or above `required_corpus`, truncated to a whole
currency unit via `int(hi)`. -/
theorem C2_sip_bisection (C S : ℚ) (hC : 0 ≤ C) (hS : 0 ≤ S) (y : ℕ) (hy : 1 ≤ y)
    (r : ℚ) (hr : 0 ≤ r) :
    required_monthly_sip C S y r = specMonthlySip C S y r := by
  unfold required_monthly_sip specMonthlySip
  have h : (fun mid => decide (C ≤ sipGo r mid y S))
      = fun M => decide (C ≤ specFinal S r M y) := by
    funext m
    simp only [specFinal]
    rw [sipGo_iterate]
  rw [h]

theorem C2_sip_bisection_witness :
    (0 : ℚ) ≤ 100 ∧ (0 : ℚ) ≤ 0 ∧ 1 ≤ 1 ∧ (0 : ℚ) ≤ 0 ∧
      required_monthly_sip 100 0 1 0 = specMonthlySip 100 0 1 0 :=
  ⟨by norm_num, le_refl 0, le_refl 1, le_refl 0,
    C2_sip_bisection 100 0 (by norm_num) (le_refl 0) 1 (le_refl 1) 0 (le_refl 0)⟩

/-- C5: with the larger monthly expense (all other inputs fixed) each corpus
engine returns a required corpus at least as large as with the smaller
expense. -/
theorem C5_corpus_monotone_expense (e e' : ℚ) (he : e ≤ e') (y ry : ℕ) :
    required_corpus_fd e y ry ≤ required_corpus_fd e' y ry ∧
    required_corpus_inflation e y ry ≤ required_corpus_inflation e' y ry := by
  have hann : e * 12 * (1 + inflRate) ^ y ≤ e' * 12 * (1 + inflRate) ^ y := by
    apply mul_le_mul_of_nonneg_right
    · apply mul_le_mul_of_nonneg_right he
      norm_num
    · exact pow_nonneg (by norm_num [inflRate]) y
  constructor
  · show (bisect (fun C => fdGo (e * 12 * (1 + inflRate) ^ y) ry C) (0, 100000000000) 100).2
      ≤ (bisect (fun C => fdGo (e' * 12 * (1 + inflRate) ^ y) ry C) (0, 100000000000) 100).2
    apply bisect_hi_mono _ _ _ _ (by norm_num)
    intro x hx
    exact fdGo_le _ _ hann ry x x (le_refl x) hx
  · show (bisect (fun C => inflGo ry C (e * 12 * (1 + inflRate) ^ y)) (0, 100000000000) 100).2
      ≤ (bisect (fun C => inflGo ry C (e' * 12 * (1 + inflRate) ^ y)) (0, 100000000000) 100).2
    apply bisect_hi_mono _ _ _ _ (by norm_num)
    intro x hx
    exact inflGo_le ry x x _ _ (le_refl x) hann hx

theorem C5_corpus_monotone_expense_witness :
    (100 : ℚ) ≤ 200 ∧
      (required_corpus_fd 100 0 1 ≤ required_corpus_fd 200 0 1 ∧
        required_corpus_inflation 100 0 1 ≤ required_corpus_inflation 200 0 1) :=
  ⟨by norm_num, C5_corpus_monotone_expense 100 200 (by norm_num) 0 1⟩

theorem bisect_hi_nonneg (p : ℚ → Bool) (H : ℚ) (hH : 0 ≤ H) (n : ℕ) :
    0 ≤ (bisect p (0, H) n).2 := by
  obtain ⟨k, _, h⟩ := bisect_grid p H n
  rw [h]
  have hk : (0 : ℚ) ≤ (k : ℚ) + 1 := by positivity
  exact mul_nonneg hk (div_nonneg hH (by positivity))

theorem bisect_hi_le (p : ℚ → Bool) (H : ℚ) (hH : 0 ≤ H) (n : ℕ) :
    (bisect p (0, H) n).2 ≤ H := by
  obtain ⟨k, hk, h⟩ := bisect_grid p H n
  rw [h]
  have h1 : ((k : ℚ) + 1) ≤ (2 : ℚ) ^ n := by exact_mod_cast hk
  calc ((k : ℚ) + 1) * (H / 2 ^ n)
      ≤ (2 : ℚ) ^ n * (H / 2 ^ n) :=
        mul_le_mul_of_nonneg_right h1 (div_nonneg hH (by positivity))
    _ = H := by field_simp

/-- C6 (amended): with the larger current savings the required monthly SIP
is no larger, provided the annual return is at least `-100%` (for returns
below `-100%` the final balance is antitone in the savings and the claim
fails). -/
theorem C6_sip_monotone_savings (Creq S S' : ℚ) (y : ℕ) (r : ℚ)
    (hr : -1 ≤ r) (hS : S ≤ S') :
    required_monthly_sip Creq S' y r ≤ required_monthly_sip Creq S y r := by
  have himp : ∀ x, (fun mid => decide (Creq ≤ sipGo r mid y S)) x = true →
      (fun mid => decide (Creq ≤ sipGo r mid y S')) x = true := by
    intro x hx
    simp only [decide_eq_true_eq] at hx ⊢
    exact le_trans hx (sipGo_mono_start r hr x y S S' hS)
  have hmono := bisect_hi_mono (fun mid => decide (Creq ≤ sipGo r mid y S'))
    (fun mid => decide (Creq ≤ sipGo r mid y S)) himp 300000 (by norm_num) 100
  have h1 := bisect_hi_nonneg (fun mid => decide (Creq ≤ sipGo r mid y S'))
    300000 (by norm_num) 100
  show pyInt _ ≤ pyInt _
  rw [pyInt_eq_floor _ h1, pyInt_eq_floor _ (le_trans h1 hmono)]
  exact Int.floor_le_floor hmono

/-- C6 counterexample: with annual return `-300%` (unconstrained in the
claim), increasing current savings from 0 to 100000 strictly increases the
required monthly SIP, refuting the claim as stated. -/
theorem C6_counterexample :
    ¬ (required_monthly_sip 0 100000 1 (-3) ≤ required_monthly_sip 0 0 1 (-3)) := by
  have hz : required_monthly_sip 0 0 1 (-3) = 0 := by
    obtain ⟨k, hk, hst⟩ :=
      bisect_grid (fun mid => decide ((0 : ℚ) ≤ sipGo (-3) mid 1 0)) 300000 100
    rcases bisect_lo_false (fun mid => decide ((0 : ℚ) ≤ sipGo (-3) mid 1 0))
        (0, 300000) 100 with hlo | hlo
    · have hk0 : (k : ℚ) * (300000 / 2 ^ 100) = 0 := by
        rw [hst] at hlo
        exact hlo
      have hkz : (k : ℚ) = 0 := by
        rcases mul_eq_zero.mp hk0 with h | h
        · exact h
        · exact absurd h (by norm_num)
      show pyInt (bisect (fun mid => decide ((0 : ℚ) ≤ sipGo (-3) mid 1 0)) (0, 300000) 100).2 = 0
      rw [hst]
      simp only [hkz]
      rw [pyInt_eq_floor _ (by norm_num)]
      rw [Int.floor_eq_zero_iff]
      constructor <;> norm_num
    · rw [hst] at hlo
      simp only [decide_eq_false_iff_not] at hlo
      exfalso
      apply hlo
      have hs : sipGo (-3) ((k : ℚ) * (300000 / 2 ^ 100)) 1 0
          = 0 * (1 + (-3)) + 12 * ((k : ℚ) * (300000 / 2 ^ 100)) := by
        simp [sipGo]
      rw [hs]
      positivity
  have hpos : 1 ≤ required_monthly_sip 0 100000 1 (-3) := by
    have htop : (fun mid => decide ((0 : ℚ) ≤ sipGo (-3) mid 1 100000)) (0, (300000 : ℚ)).2
        = true := by
      simp only [decide_eq_true_eq]
      have : sipGo (-3) 300000 1 100000 = 100000 * (1 + (-3)) + 12 * 300000 := by
        simp [sipGo]
      rw [this]
      norm_num
    have hhi := bisect_hi_true (fun mid => decide ((0 : ℚ) ≤ sipGo (-3) mid 1 100000))
      (0, 300000) htop 100
    simp only [decide_eq_true_eq] at hhi
    set hi := (bisect (fun mid => decide ((0 : ℚ) ≤ sipGo (-3) mid 1 100000))
      (0, 300000) 100).2 with hdef
    have hs : sipGo (-3) hi 1 100000 = 100000 * (1 + (-3)) + 12 * hi := by
      simp [sipGo]
    rw [hs] at hhi
    have hge : (1 : ℚ) ≤ hi := by linarith
    have hnn : (0 : ℚ) ≤ hi :=
      bisect_hi_nonneg (fun mid => decide ((0 : ℚ) ≤ sipGo (-3) mid 1 100000))
        300000 (by norm_num) 100
    show 1 ≤ pyInt hi
    rw [pyInt_eq_floor _ hnn]
    exact Int.le_floor.mpr (by exact_mod_cast hge)
  omega

theorem C6_sip_monotone_savings_witness :
    ((-1 : ℚ) ≤ 0 ∧ (0 : ℚ) ≤ 1) ∧
      required_monthly_sip 100 1 1 0 ≤ required_monthly_sip 100 0 1 0 :=
  ⟨⟨by norm_num, by norm_num⟩,
    C6_sip_monotone_savings 100 0 1 1 0 (by norm_num) (by norm_num)⟩

/-- C3 (amended): provided the upper search bound of 300000 per month
reaches the required corpus, the SIP returned by `required_monthly_sip` is
within one rounding unit of a sufficient contribution: one unit more per
month reaches the corpus, and the shortfall of the returned SIP itself is
at most `12 * ann r y` (one currency unit per month, compounded over the
horizon) — not within one rounding unit of the corpus itself. -/
theorem C3_sip_solver_precision (Creq S : ℚ) (y : ℕ) (r : ℚ)
    (hC : 0 ≤ Creq) (hS : 0 ≤ S) (hy : 1 ≤ y) (hr : 0 ≤ r)
    (hreach : Creq ≤ sipGo r 300000 y S) :
    Creq ≤ sipGo r (((required_monthly_sip Creq S y r : ℤ) : ℚ) + 1) y S ∧
    Creq - 12 * ann r y ≤ sipGo r ((required_monthly_sip Creq S y r : ℤ) : ℚ) y S := by
  have hunfold : required_monthly_sip Creq S y r
      = pyInt (bisect (fun mid => decide (Creq ≤ sipGo r mid y S)) (0, 300000) 100).2 := rfl
  rw [hunfold]
  set hi := (bisect (fun mid => decide (Creq ≤ sipGo r mid y S)) (0, 300000) 100).2 with hdef
  have htop : (fun mid => decide (Creq ≤ sipGo r mid y S)) (0, (300000 : ℚ)).2 = true := by
    simp only [decide_eq_true_eq]
    exact hreach
  have hPhi : Creq ≤ sipGo r hi y S := by
    have h := bisect_hi_true (fun mid => decide (Creq ≤ sipGo r mid y S)) (0, 300000) htop 100
    simp only [decide_eq_true_eq] at h
    rw [hdef]
    exact h
  have hnn : 0 ≤ hi := by
    rw [hdef]
    exact bisect_hi_nonneg _ 300000 (by norm_num) 100
  rw [pyInt_eq_floor _ hnn]
  have h1 : hi ≤ (⌊hi⌋ : ℚ) + 1 := le_of_lt (Int.lt_floor_add_one hi)
  have h2 : hi - 1 ≤ (⌊hi⌋ : ℚ) := le_of_lt (Int.sub_one_lt_floor hi)
  have hm1 : -1 ≤ r := by linarith
  have hmid : sipGo r hi y S ≤ sipGo r ((⌊hi⌋ : ℚ) + 1) y S :=
    sipGo_mono_mid r hm1 hi _ h1 y S
  have hmid2 : sipGo r (hi - 1) y S ≤ sipGo r (⌊hi⌋ : ℚ) y S :=
    sipGo_mono_mid r hm1 _ _ h2 y S
  have hclosed : sipGo r (hi - 1) y S = sipGo r hi y S - 12 * ann r y := by
    rw [sipGo_closed, sipGo_closed]
    ring
  exact ⟨by linarith, by linarith⟩

/-- C3 counterexample: at the valid input `required_corpus = 1000000`,
`current_savings = 0`, `years = 1`, `annual_return = 7%`, forward-simulating
the returned SIP leaves a final balance more than one rounding unit away
from the required corpus. -/
theorem C3_counterexample :
    ¬ (|sipGo (7 / 100) ((required_monthly_sip 1000000 0 1 (7 / 100) : ℤ) : ℚ) 1 0
        - 1000000| ≤ 1) := by
  obtain ⟨k, hk, hst⟩ :=
    bisect_grid (fun mid => decide ((1000000 : ℚ) ≤ sipGo (7 / 100) mid 1 0)) 300000 100
  have hunfold : required_monthly_sip 1000000 0 1 (7 / 100)
      = pyInt (bisect (fun mid => decide ((1000000 : ℚ) ≤ sipGo (7 / 100) mid 1 0))
          (0, 300000) 100).2 := rfl
  rw [hst] at hunfold
  simp only at hunfold
  have hfin : ∀ m : ℚ, sipGo (7 / 100) m 1 0 = 12 * m := by
    intro m
    simp [sipGo]
  have habs : ∀ M : ℤ, required_monthly_sip 1000000 0 1 (7 / 100) = M →
      12 * (M : ℚ) ≤ 999996 →
      ¬ (|sipGo (7 / 100) ((required_monthly_sip 1000000 0 1 (7 / 100) : ℤ) : ℚ) 1 0
          - 1000000| ≤ 1) := by
    intro M hM hle habs2
    rw [hM, hfin] at habs2
    rw [abs_le] at habs2
    linarith [habs2.1]
  rcases bisect_lo_false (fun mid => decide ((1000000 : ℚ) ≤ sipGo (7 / 100) mid 1 0))
      (0, 300000) 100 with hlo | hlo
  · -- the lower end never moved: the interval is the leftmost cell
    rw [hst] at hlo
    simp only at hlo
    have hkz : (k : ℚ) = 0 := by
      rcases mul_eq_zero.mp hlo with h | h
      · exact h
      · exact absurd h (by norm_num)
    rw [hkz] at hunfold
    have hM0 : required_monthly_sip 1000000 0 1 (7 / 100) = 0 := by
      rw [hunfold, pyInt_eq_floor _ (by norm_num), Int.floor_eq_zero_iff]
      constructor <;> norm_num
    exact habs 0 hM0 (by norm_num)
  · -- the predicate is false at the lower end: the cell is below the threshold
    rw [hst] at hlo
    simp only [decide_eq_false_iff_not] at hlo
    rw [hfin] at hlo
    push_neg at hlo
    have hdpos : (0 : ℚ) < 300000 / 2 ^ 100 := by norm_num
    have hhi : ((k : ℚ) + 1) * (300000 / 2 ^ 100)
        = (k : ℚ) * (300000 / 2 ^ 100) + 300000 / 2 ^ 100 := by ring
    have hdsmall : (300000 : ℚ) / 2 ^ 100 < 1 := by norm_num
    have hup : ((k : ℚ) + 1) * (300000 / 2 ^ 100) < 83334 := by
      rw [hhi]
      nlinarith
    have hnn : (0 : ℚ) ≤ ((k : ℚ) + 1) * (300000 / 2 ^ 100) := by positivity
    have hMle : required_monthly_sip 1000000 0 1 (7 / 100) ≤ 83333 := by
      rw [hunfold, pyInt_eq_floor _ hnn]
      have : (⌊((k : ℚ) + 1) * (300000 / 2 ^ 100)⌋ : ℚ)
          ≤ ((k : ℚ) + 1) * (300000 / 2 ^ 100) := Int.floor_le _
      have hlt : (⌊((k : ℚ) + 1) * (300000 / 2 ^ 100)⌋ : ℚ) < 83334 := by linarith
      have : ⌊((k : ℚ) + 1) * (300000 / 2 ^ 100)⌋ < 83334 := by exact_mod_cast hlt
      omega
    have hcast : ((required_monthly_sip 1000000 0 1 (7 / 100) : ℤ) : ℚ) ≤ 83333 := by
      exact_mod_cast hMle
    exact habs _ rfl (by linarith)

theorem C3_sip_solver_precision_witness :
    ((0 : ℚ) ≤ 1000000 ∧ (0 : ℚ) ≤ 0 ∧ 1 ≤ 1 ∧ (0 : ℚ) ≤ 0 ∧
        (1000000 : ℚ) ≤ sipGo 0 300000 1 0) ∧
      (1000000 ≤ sipGo 0 (((required_monthly_sip 1000000 0 1 0 : ℤ) : ℚ) + 1) 1 0 ∧
        1000000 - 12 * ann 0 1 ≤ sipGo 0 ((required_monthly_sip 1000000 0 1 0 : ℤ) : ℚ) 1 0) :=
  ⟨⟨by norm_num, le_refl 0, le_refl 1, le_refl 0, by simp [sipGo]; norm_num⟩,
    C3_sip_solver_precision 1000000 0 1 0 (by norm_num) (le_refl 0) (le_refl 1) (le_refl 0)
      (by simp [sipGo]; norm_num)⟩

/-- C10 (amended): the returned SIP always lies in `[0, 300000]`; and
provided the annual return is nonnegative (for returns below `-100%` the
final balance is not monotone in the contribution and the saturation claim
fails), whenever even a constant 300000 per month leaves the final balance
below the required corpus, the function returns exactly 300000 with no
error or sentinel. -/
theorem C10_sip_range_saturation :
    (∀ (Creq S : ℚ) (y : ℕ) (r : ℚ), 0 ≤ S →
        0 ≤ required_monthly_sip Creq S y r ∧ required_monthly_sip Creq S y r ≤ 300000) ∧
    (∀ (Creq S : ℚ) (y : ℕ) (r : ℚ), 0 ≤ S → 0 ≤ r →
        sipGo r 300000 y S < Creq → required_monthly_sip Creq S y r = 300000) := by
  constructor
  · intro Creq S y r hS
    have hnn := bisect_hi_nonneg (fun mid => decide (Creq ≤ sipGo r mid y S))
      300000 (by norm_num) 100
    have hle := bisect_hi_le (fun mid => decide (Creq ≤ sipGo r mid y S))
      300000 (by norm_num) 100
    constructor
    · show 0 ≤ pyInt _
      rw [pyInt_eq_floor _ hnn]
      exact Int.floor_nonneg.mpr hnn
    · show pyInt _ ≤ 300000
      rw [pyInt_eq_floor _ hnn]
      have h := Int.floor_le_floor hle
      rw [show ((300000 : ℚ)) = ((300000 : ℤ) : ℚ) by norm_num, Int.floor_intCast] at h
      exact h
  · intro Creq S y r hS hr htop
    have hmono : ∀ a b : ℚ, a ≤ b →
        (fun mid => decide (Creq ≤ sipGo r mid y S)) a = true →
        (fun mid => decide (Creq ≤ sipGo r mid y S)) b = true := by
      intro a b hab ha
      simp only [decide_eq_true_eq] at ha ⊢
      exact le_trans ha (sipGo_mono_mid r (by linarith) a b hab y S)
    have hfalse : (fun mid => decide (Creq ≤ sipGo r mid y S)) ((0 : ℚ), (300000 : ℚ)).2
        = false := by
      simp only [decide_eq_false_iff_not]
      exact not_le.mpr htop
    obtain ⟨h2, _⟩ := bisect_hi_of_topfalse (fun mid => decide (Creq ≤ sipGo r mid y S))
      hmono 100 (0, 300000) hfalse (by norm_num)
    show pyInt _ = 300000
    rw [h2, show ((0 : ℚ), (300000 : ℚ)).2 = ((300000 : ℤ) : ℚ) by norm_num]
    exact pyInt_intCast 300000

/-- C10 counterexample: with annual return `-300%` and a required corpus
just above the (negative) final balance of the maximal contribution, even
though a constant 300000 per month leaves the final balance below the
required corpus, the function returns 0 rather than the upper bound
300000, refuting the unconditional saturation claim. -/
theorem C10_counterexample :
    sipGo (-3) 300000 2 0 < -3600000 + 3600000 / 2 ^ 100 ∧
    required_monthly_sip (-3600000 + 3600000 / 2 ^ 100) 0 2 (-3) ≠ 300000 := by
  have hfin : ∀ m : ℚ, sipGo (-3) m 2 0 = -12 * m := by
    intro m
    simp [sipGo]
    ring
  constructor
  · rw [hfin]
    norm_num
  · obtain ⟨k, hk, hst⟩ := bisect_grid
      (fun mid => decide ((-3600000 + 3600000 / 2 ^ 100 : ℚ) ≤ sipGo (-3) mid 2 0)) 300000 100
    have hunfold : required_monthly_sip (-3600000 + 3600000 / 2 ^ 100) 0 2 (-3)
        = pyInt (bisect
            (fun mid => decide ((-3600000 + 3600000 / 2 ^ 100 : ℚ) ≤ sipGo (-3) mid 2 0))
            (0, 300000) 100).2 := rfl
    rcases bisect_lo_false
        (fun mid => decide ((-3600000 + 3600000 / 2 ^ 100 : ℚ) ≤ sipGo (-3) mid 2 0))
        (0, 300000) 100 with hlo | hlo
    · rw [hst] at hlo hunfold
      simp only at hlo hunfold
      have hkz : (k : ℚ) = 0 := by
        rcases mul_eq_zero.mp hlo with h | h
        · exact h
        · exact absurd h (by norm_num)
      rw [hkz] at hunfold
      rw [hunfold, pyInt_eq_floor _ (by norm_num)]
      have : ⌊((0 : ℚ) + 1) * (300000 / 2 ^ 100)⌋ = 0 := by
        rw [Int.floor_eq_zero_iff]
        constructor <;> norm_num
      rw [this]
      norm_num
    · exfalso
      rw [hst] at hlo
      simp only [decide_eq_false_iff_not, hfin] at hlo
      apply hlo
      have ht : (k : ℚ) ≤ 2 ^ 100 - 1 := by
        have : (k : ℚ) + 1 ≤ 2 ^ 100 := by exact_mod_cast hk
        linarith
      have hd0 : (0 : ℚ) ≤ 300000 / 2 ^ 100 := by norm_num
      have htd : (k : ℚ) * (300000 / 2 ^ 100) ≤ 300000 - 300000 / 2 ^ 100 := by
        have h1 : (k : ℚ) * (300000 / 2 ^ 100) ≤ (2 ^ 100 - 1) * (300000 / 2 ^ 100) :=
          mul_le_mul_of_nonneg_right ht hd0
        have h2 : ((2 : ℚ) ^ 100 - 1) * (300000 / 2 ^ 100) = 300000 - 300000 / 2 ^ 100 := by
          field_simp
          ring
        linarith
      have h36 : (3600000 : ℚ) / 2 ^ 100 = 12 * (300000 / 2 ^ 100) := by ring
      rw [h36]
      linarith [htd]

theorem C10_sip_range_saturation_witness :
    ((0 : ℚ) ≤ 0 ∧
        (0 ≤ required_monthly_sip 100 0 1 0 ∧ required_monthly_sip 100 0 1 0 ≤ 300000)) ∧
      ((0 : ℚ) ≤ 0 ∧ (0 : ℚ) ≤ 0 ∧ sipGo 0 300000 1 0 < 10000000000 ∧
        required_monthly_sip 10000000000 0 1 0 = 300000) :=
  ⟨⟨le_refl 0, C10_sip_range_saturation.1 100 0 1 0 (le_refl 0)⟩,
    ⟨le_refl 0, le_refl 0, by simp [sipGo]; norm_num,
      C10_sip_range_saturation.2 10000000000 0 1 0 (le_refl 0) (le_refl 0)
        (by simp [sipGo]; norm_num)⟩⟩

/-- C4 (amended): the code contains no defensive horizon checks. With
`retirement_years = 0` the survives predicate is vacuously true and both
corpus engines return `1e11 / 2^100` — near zero but strictly positive,
not 0, and no error condition is raised; with `years = 0`
`required_monthly_sip` still returns a plain number: 0 when
`current_savings` already reaches the corpus, and the saturated upper
bound 300000 otherwise. -/
theorem C4_no_horizon_guards :
    (∀ (e : ℚ) (y : ℕ),
        required_corpus_fd e y 0 = 100000000000 / 2 ^ 100 ∧
        required_corpus_inflation e y 0 = 100000000000 / 2 ^ 100) ∧
    (∀ Creq S r : ℚ, required_monthly_sip Creq S 0 r = if Creq ≤ S then 0 else 300000) := by
  constructor
  · intro e y
    constructor
    · show (bisect (fun C => fdGo (e * 12 * (1 + inflRate) ^ y) 0 C) (0, 100000000000) 100).2
        = _
      rw [bisect_of_true (fun C => fdGo (e * 12 * (1 + inflRate) ^ y) 0 C) 100000000000
        (fun x => rfl) 100]
    · show (bisect (fun C => inflGo 0 C (e * 12 * (1 + inflRate) ^ y)) (0, 100000000000) 100).2
        = _
      rw [bisect_of_true (fun C => inflGo 0 C (e * 12 * (1 + inflRate) ^ y)) 100000000000
        (fun x => rfl) 100]
  · intro Creq S r
    by_cases hCS : Creq ≤ S
    · rw [if_pos hCS]
      show pyInt (bisect (fun mid => decide (Creq ≤ sipGo r mid 0 S)) (0, 300000) 100).2 = 0
      rw [bisect_of_true (fun mid => decide (Creq ≤ sipGo r mid 0 S)) 300000
        (fun x => by simp only [decide_eq_true_eq]; exact hCS) 100]
      simp only
      rw [pyInt_eq_floor _ (by norm_num), Int.floor_eq_zero_iff]
      constructor <;> norm_num
    · rw [if_neg hCS]
      show pyInt (bisect (fun mid => decide (Creq ≤ sipGo r mid 0 S)) (0, 300000) 100).2
        = 300000
      rw [bisect_hi_of_false (fun mid => decide (Creq ≤ sipGo r mid 0 S)) _
        (fun x => by simp only [decide_eq_false_iff_not]; exact hCS) 100]
      rw [show ((0 : ℚ), (300000 : ℚ)).2 = ((300000 : ℤ) : ℚ) by norm_num]
      exact pyInt_intCast 300000

/-- C4 counterexample: with `retirement_years = 0` the corpus engine
returns a nonzero value (not the claimed corpus of 0, and no raised
condition), and with `years = 0` `required_monthly_sip` returns the plain
number 300000 rather than raising. -/
theorem C4_counterexample :
    required_corpus_fd 100 5 0 ≠ 0 ∧ required_monthly_sip 1000 0 0 0 = 300000 := by
  constructor
  · show (bisect (fun C => fdGo (100 * 12 * (1 + inflRate) ^ 5) 0 C) (0, 100000000000) 100).2
      ≠ 0
    rw [bisect_of_true (fun C => fdGo (100 * 12 * (1 + inflRate) ^ 5) 0 C) 100000000000
      (fun x => rfl) 100]
    norm_num
  · show pyInt (bisect (fun mid => decide ((1000 : ℚ) ≤ sipGo 0 mid 0 0)) (0, 300000) 100).2
      = 300000
    rw [bisect_hi_of_false (fun mid => decide ((1000 : ℚ) ≤ sipGo 0 mid 0 0)) _
      (fun x => by simp only [decide_eq_false_iff_not]; norm_num [sipGo]) 100]
    rw [show ((0 : ℚ), (300000 : ℚ)).2 = ((300000 : ℤ) : ℚ) by norm_num]
    exact pyInt_intCast 300000

/-- C7: for every `current_age < retirement_age` and `is_behind`,
`system_risk_level` returns 4 if the horizon exceeds 25 years, else 3 if it
exceeds 15, else 2, incremented by 1 and capped at 5 when `is_behind`; and
for risks in `1..5`, `blended_risk` returns
`round(0.6 * user_risk + 0.4 * system_risk)` clamped to `[1, 5]`. -/
theorem C7_risk_blending (ca ra : ℤ) (hage : ca < ra) (b : Bool) (u s : ℤ)
    (hu1 : 1 ≤ u) (hu5 : u ≤ 5) (hs1 : 1 ≤ s) (hs5 : s ≤ 5) :
    system_risk_level ca ra b
      = (if b then
          min 5 ((if ra - ca > 25 then 4 else if ra - ca > 15 then 3 else 2) + 1)
        else (if ra - ca > 25 then 4 else if ra - ca > 15 then 3 else 2)) ∧
    blended_risk u s = max 1 (min 5 (round ((6 / 10 : ℚ) * u + (4 / 10 : ℚ) * s))) :=
  ⟨rfl, rfl⟩

theorem C7_risk_blending_witness :
    ((30 : ℤ) < 60 ∧ (1 : ℤ) ≤ 3 ∧ (3 : ℤ) ≤ 5 ∧ (1 : ℤ) ≤ 4 ∧ (4 : ℤ) ≤ 5) ∧
      (system_risk_level 30 60 false
          = (if false then
              min 5 ((if (60 : ℤ) - 30 > 25 then 4 else if (60 : ℤ) - 30 > 15 then 3 else 2) + 1)
            else (if (60 : ℤ) - 30 > 25 then 4 else if (60 : ℤ) - 30 > 15 then 3 else 2)) ∧
        blended_risk 3 4 = max 1 (min 5 (round ((6 / 10 : ℚ) * 3 + (4 / 10 : ℚ) * 4)))) :=
  ⟨⟨by norm_num, by norm_num, by norm_num, by norm_num, by norm_num⟩,
    C7_risk_blending 30 60 (by norm_num) false 3 4
      (by norm_num) (by norm_num) (by norm_num) (by norm_num)⟩

/-- C8: for every risk level 1..5 the four allocation fractions sum to
exactly 1, and hence the per-asset monthly amounts sum exactly to the
monthly SIP. -/
theorem C8_alloc_rows_sum_one (risk : ℤ) (h1 : 1 ≤ risk) (h5 : risk ≤ 5) :
    (assetList.map (RISK_ALLOC risk)).sum = 1 ∧
    ∀ sip : ℚ, (assetList.map (fun a => sip * RISK_ALLOC risk a)).sum = sip := by
  interval_cases risk <;>
    exact ⟨by norm_num [assetList, RISK_ALLOC],
      fun sip => by simp [assetList, RISK_ALLOC]; ring⟩

theorem C8_alloc_rows_sum_one_witness :
    ((1 : ℤ) ≤ 3 ∧ (3 : ℤ) ≤ 5) ∧
      ((assetList.map (RISK_ALLOC 3)).sum = 1 ∧
        (assetList.map (fun a => (120 : ℚ) * RISK_ALLOC 3 a)).sum = 120) :=
  ⟨⟨by norm_num, by norm_num⟩,
    ⟨(C8_alloc_rows_sum_one 3 (by norm_num) (by norm_num)).1,
      (C8_alloc_rows_sum_one 3 (by norm_num) (by norm_num)).2 120⟩⟩

/-- Conditional addition in sequence equals an unconditional sum of a
conditional increment. -/
theorem addIf (c : Prop) [Decidable c] (x a : ℚ) :
    (if c then x + a else x) = x + (if c then a else 0) := by
  split_ifs <;> simp

/-- Three-way conditional addition in sequence equals an unconditional sum
of a three-way conditional increment. -/
theorem addIf3 (c₁ c₂ : Prop) [Decidable c₁] [Decidable c₂] (x a b : ℚ) :
    (if c₁ then x + a else x + (if c₂ then b else 0))
      = x + (if c₁ then a else if c₂ then b else 0) := by
  split_ifs <;> simp

/-- C9: for ages in `[18, 80]`, the required health cover is the age-banded
base (`< 30`: 1,000,000; `30..45`: 1,500,000; `> 45`: 2,500,000) plus
cumulative additions of 500,000 for two or more dependents, 500,000 /
250,000 for a Tier-1 / Tier-2 city, and 500,000 / 250,000 / 250,000 for
smoking / sedentary / high-stress lifestyle risks; in particular, for age
25, no dependents, a Tier-3 city and no lifestyle risks it is exactly
1,000,000. -/
theorem C9_health_cover (i : InsuranceInputs) (h18 : 18 ≤ i.age) (h80 : i.age ≤ 80) :
    calculate_required_health_cover i
      = (if i.age < 30 then 1000000 else if i.age ≤ 45 then 1500000 else 2500000)
        + (if i.dependents ≥ 2 then 500000 else 0)
        + (if i.city_tier = "Tier_1" then 500000
          else if i.city_tier = "Tier_2" then 250000 else 0)
        + (if "smoking" ∈ i.lifestyle_risks.getD [] then 500000 else 0)
        + (if "sedentary" ∈ i.lifestyle_risks.getD [] then 250000 else 0)
        + (if "high_stress" ∈ i.lifestyle_risks.getD [] then 250000 else 0) ∧
    calculate_required_health_cover ⟨25, 0, 0, 0, 0, "Tier_3", none⟩ = 1000000 := by
  constructor
  · simp only [calculate_required_health_cover, addIf, addIf3]
  · rfl

theorem C9_health_cover_witness :
    ((18 : ℤ) ≤ 40 ∧ (40 : ℤ) ≤ 80) ∧
      (calculate_required_health_cover ⟨40, 500000, 3, 0, 0, "Tier_2", some ["smoking"]⟩
          = (if (40 : ℤ) < 30 then 1000000 else if (40 : ℤ) ≤ 45 then 1500000 else 2500000)
            + (if (3 : ℤ) ≥ 2 then 500000 else 0)
            + (if "Tier_2" = "Tier_1" then 500000
              else if "Tier_2" = "Tier_2" then 250000 else 0)
            + (if "smoking" ∈ ["smoking"] then 500000 else 0)
            + (if "sedentary" ∈ ["smoking"] then 250000 else 0)
            + (if "high_stress" ∈ ["smoking"] then 250000 else 0) ∧
        calculate_required_health_cover ⟨25, 0, 0, 0, 0, "Tier_3", none⟩ = 1000000) :=
  ⟨⟨by norm_num, by norm_num⟩,
    C9_health_cover ⟨40, 500000, 3, 0, 0, "Tier_2", some ["smoking"]⟩
      (by norm_num) (by norm_num)⟩

end RetSim
